import Mathlib

/-!
Shallow embedding of the PricePulse30Bot core (subscription registry,
scheduler, broadcast dispatcher) from `src/bot/bot.service.ts` and
`src/scheduler/scheduler.service.ts`, together with theorems settling
the specification claims.

External collaborators are modelled as parameters:
the `Intl.NumberFormat` currency formatter as
`format : LocaleCurrency → Nat → String`, the price source
(`getCurrencyPrice`, which resolves with a rounded integer price or
rejects) as `fetch : String → Option Nat`, and the outbound Telegram
transport (`bot.telegram.sendMessage`, which resolves or rejects) as
`sendOk : Int → Bool`.

JavaScript `Map` is modelled as an insertion-ordered association list
(`Map.set` on an existing key updates in place, otherwise appends);
JavaScript `Set` as an insertion-ordered duplicate-free list
(`Set.add` appends when absent, `Set.delete` removes).
-/

namespace PricePulse

/-- A locale/currency descriptor, as in the values of the `currencies` map. -/
structure LocaleCurrency where
  locale : String
  currency : String
deriving DecidableEq, Repr

/-- The `from`/`to` descriptors stored for one tracked pair. -/
structure PairInfo where
  fromDesc : LocaleCurrency
  toDesc : LocaleCurrency
deriving DecidableEq, Repr

/-- The fixed `currencies` map of `BotService` (insertion order preserved). -/
def currencies : List (String × PairInfo) :=
  [("USDTIRT", ⟨⟨"en-US", "USD"⟩, ⟨"fa-IR", "IRR"⟩⟩),
   ("BTCIRT", ⟨⟨"en-US", "BTC"⟩, ⟨"fa-IR", "IRR"⟩⟩)]

/-- The identifiers of the tracked pairs (the keys of `currencies`). -/
def trackedIds : List String := currencies.map (·.1)

/-- The value stored per chat in the `chats` map: the subscribed-currency
set, modelled as a JavaScript `Set` (insertion-ordered list). -/
structure Chat where
  subscribedCurrencies : List String
deriving DecidableEq, Repr

/-- The `chats` map of `BotService`: chat id → chat data, modelled as an
insertion-ordered association list. -/
abbrev Chats := List (Int × Chat)

/-- `this.chats.get(chatId)`. -/
def mapGet (m : Chats) (k : Int) : Option Chat :=
  (m.find? (fun kv => kv.1 = k)).map (·.2)

/-- `this.chats.set(chatId, v)`: update in place when the key exists
(keeping its position), otherwise append. -/
def mapSet (m : Chats) (k : Int) (v : Chat) : Chats :=
  if m.any (fun kv => kv.1 = k) then
    m.map (fun kv => if kv.1 = k then (k, v) else kv)
  else m ++ [(k, v)]

/-- JavaScript `Set.add`: append when absent. -/
def setAdd (s : List String) (c : String) : List String :=
  if c ∈ s then s else s ++ [c]

/-- JavaScript `Set.delete`: remove the element. -/
def setDelete (s : List String) (c : String) : List String :=
  s.filter (fun x => x ≠ c)

/-- The registry part of the `initializeChatIfAbsent` middleware:
`if (!this.chats.has(chatId)) this.chats.set(chatId, { subscribedCurrencies: new Set() })`.
(The surrounding private-chat/whitelisted-channel guard is transport-level
allow/deny logic, outside the registry.) -/
def initializeChatIfAbsent (m : Chats) (chatId : Int) : Chats :=
  if (mapGet m chatId).isSome then m else mapSet m chatId ⟨[]⟩

/-- The `updatedSubscribedCurrencies` computed by `handleToggleCurrencyAction`:
delete the currency when present, add it when absent. No check against the
tracked-pair set is performed. -/
def updatedSubscribedCurrencies (subscribedCurrencies : List String)
    (currency : String) : List String :=
  if currency ∈ subscribedCurrencies then setDelete subscribedCurrencies currency
  else setAdd subscribedCurrencies currency

/-- `handleToggleCurrencyAction`: destructures `this.chats.get(chatId)`
(`none` models the TypeError thrown when the chat is unknown, before any
mutation), then stores the updated set. -/
def handleToggleCurrencyAction (m : Chats) (chatId : Int) (currency : String) :
    Option Chats :=
  (mapGet m chatId).map (fun chat =>
    mapSet m chatId ⟨updatedSubscribedCurrencies chat.subscribedCurrencies currency⟩)

/-- `handleUnsubscribeCommand`:
`this.chats.set(chatId, { ...this.chats.get(chatId), subscribedCurrencies: new Set() })`.
Spreading `undefined` is legal, so an unknown chat id gets a fresh entry
with an empty set. -/
def handleUnsubscribeCommand (m : Chats) (chatId : Int) : Chats :=
  mapSet m chatId ⟨[]⟩

/-- Whether a currency is in a chat's subscription set (`none` when the
chat is unknown); this is the `isActive` state `createCurrencyKeyboard`
renders per button. -/
def isSubscribed (m : Chats) (chatId : Int) (currency : String) : Option Bool :=
  (mapGet m chatId).map (fun chat => decide (currency ∈ chat.subscribedCurrencies))

/-- `createCurrencyKeyboard`: one (label, callback-data) button per tracked
currency — label showing the subscribed state — plus the Confirm button.
`none` models the TypeError when the chat is unknown. -/
def createCurrencyKeyboard (m : Chats) (chatId : Int) :
    Option (List (String × String)) :=
  (mapGet m chatId).map (fun chat =>
    (currencies.map (fun ci =>
      if ci.1 ∈ chat.subscribedCurrencies then
        ("⭕ " ++ ci.1, "toggle_currency_" ++ ci.1)
      else
        ("❌ " ++ ci.1, "toggle_currency_" ++ ci.1)))
    ++ [("Confirm", "confirm_currency")])

/-- The per-pair success line built in `sendPriceUpdate`:
`` `${currency} \n${fmtFrom.format(1)} = ${fmtTo.format(price)}` ``. -/
def priceLine (format : LocaleCurrency → Nat → String) (currency : String)
    (info : PairInfo) (price : Nat) : String :=
  currency ++ " \n" ++ format info.fromDesc 1 ++ " = " ++ format info.toDesc price

/-- The per-pair failure line built in the catch branch of `sendPriceUpdate`. -/
def errorLine (currency : String) : String :=
  "Error retrieving price for " ++ currency ++ ". Please try again later."

/-- The `messages` array of `sendPriceUpdate`: for every entry of
`currencies`, a (currency, line) pair — the formatted line on fetch
success, the error line on fetch failure. -/
def buildMessages (format : LocaleCurrency → Nat → String)
    (fetch : String → Option Nat) : List (String × String) :=
  currencies.map (fun ci =>
    match fetch ci.1 with
    | some price => (ci.1, priceLine format ci.1 ci.2 price)
    | none => (ci.1, errorLine ci.1))

/-- `messageMap.get(currency)`. -/
def messageMapGet (msgs : List (String × String)) (c : String) : Option String :=
  (msgs.find? (fun kv => kv.1 = c)).map (·.2)

/-- The separator joined between digest lines. -/
def separator : String := "\n-------------------------------- \n"

/-- The `currencyMessages` array after the `unshift(header)`: the header
followed by the subscriber's lines — `messageMap.get` misses dropped by
`filter(Boolean)` (which also drops empty strings). -/
def digestLines (header : String) (msgs : List (String × String))
    (subscribed : List String) : List String :=
  header ::
    (((subscribed.map (fun c => messageMapGet msgs c)).filterMap id).filter
      (fun s => s ≠ ""))

/-- The message sent to one subscriber: the joined digest lines. -/
def composeDigest (header : String) (msgs : List (String × String))
    (subscribed : List String) : String :=
  String.intercalate separator (digestLines header msgs subscribed)

/-- The fan-out loop of `sendPriceUpdate`: skip chats with an empty set,
otherwise compose and `await sendMessage`. A send rejection is not caught:
it propagates, aborting the loop — deliveries made so far stand, every
later chat gets nothing, and the failing chat id is reported as the
escaping error. -/
def fanOut (sendOk : Int → Bool) (header : String)
    (msgs : List (String × String)) :
    Chats → List (Int × String) × Option Int
  | [] => ([], none)
  | (chatId, chat) :: rest =>
    if chat.subscribedCurrencies.isEmpty then fanOut sendOk header msgs rest
    else
      let message := composeDigest header msgs chat.subscribedCurrencies
      if sendOk chatId then
        let r := fanOut sendOk header msgs rest
        ((chatId, message) :: r.1, r.2)
      else ([], some chatId)

/-- Observable outcome of one `sendPriceUpdate` tick. -/
structure TickResult where
  /-- Whether the no-users warning was logged (the early-return branch). -/
  warnedNoUsers : Bool
  /-- The pairs for which a price-source fetch was issued. -/
  fetched : List String
  /-- The (chatId, message) deliveries that completed. -/
  sent : List (Int × String)
  /-- The chat id whose send rejected (escaping the tick), if any. -/
  deliveryError : Option Int
deriving DecidableEq, Repr

/-- `sendPriceUpdate`: early-return when `chats.size === 0`; otherwise
fetch every tracked pair once (building the message map), then fan out. -/
def sendPriceUpdate (format : LocaleCurrency → Nat → String)
    (fetch : String → Option Nat) (sendOk : Int → Bool)
    (date : String) (chats : Chats) : TickResult :=
  if chats.length = 0 then
    { warnedNoUsers := true, fetched := [], sent := [], deliveryError := none }
  else
    let header := "Price Pulse!\n" ++ date
    let msgs := buildMessages format fetch
    let r := fanOut sendOk header msgs chats
    { warnedNoUsers := false, fetched := trackedIds, sent := r.1,
      deliveryError := r.2 }

/-- An inbound registry mutation (from the Telegram handlers). -/
inductive RegOp where
  | ensure (chatId : Int)
  | toggle (chatId : Int) (currency : String)
  | clear (chatId : Int)
deriving DecidableEq, Repr

/-- Apply one inbound mutation to the `chats` map. A toggle on an unknown
chat throws before mutating, leaving the map unchanged. -/
def applyOp (m : Chats) : RegOp → Chats
  | .ensure chatId => initializeChatIfAbsent m chatId
  | .toggle chatId currency => (handleToggleCurrencyAction m chatId currency).getD m
  | .clear chatId => handleUnsubscribeCommand m chatId

/-- Apply a sequence of inbound mutations in order. -/
def applyOps (m : Chats) (ops : List RegOp) : Chats := ops.foldl applyOp m

/-- A tick during whose fetch phase (the awaited `Promise.all`) a batch of
inbound mutations is processed: the `chats.size` guard reads the
pre-mutation map (it runs synchronously before the first await), but the
fan-out loop iterates the live `this.chats` — i.e. the mutated map. There
is no snapshot in `sendPriceUpdate`. -/
def sendPriceUpdateWithMidTickOps (format : LocaleCurrency → Nat → String)
    (fetch : String → Option Nat) (sendOk : Int → Bool)
    (date : String) (chats : Chats) (ops : List RegOp) : TickResult :=
  if chats.length = 0 then
    { warnedNoUsers := true, fetched := [], sent := [], deliveryError := none }
  else
    let header := "Price Pulse!\n" ++ date
    let msgs := buildMessages format fetch
    let r := fanOut sendOk header msgs (applyOps chats ops)
    { warnedNoUsers := false, fetched := trackedIds, sent := r.1,
      deliveryError := r.2 }

/-- The invariant claimed by the spec: every subscriber's subscription set
contains only tracked identifiers. -/
def registryInv (m : Chats) : Prop :=
  ∀ e ∈ m, ∀ c ∈ e.2.subscribedCurrencies, c ∈ trackedIds

/-- Whether an inbound mutation only toggles tracked identifiers. -/
def opTracked : RegOp → Bool
  | .toggle _ c => decide (c ∈ trackedIds)
  | _ => true

/-! ### Scheduler (`scheduler.service.ts`)

A `NodeJS.Timeout` is modelled by identity, interval, task (abstract id)
and an `active` flag: `clearInterval`/`clearTimeout` disarm the timer, and
only an armed timer can ever fire. -/

/-- One timer handle created by `setInterval`/`setTimeout`. -/
structure Timer where
  id : Nat
  interval : Nat
  task : Nat
  active : Bool
deriving DecidableEq, Repr

/-- The `SchedulerService` state: the `jobs` record (job name → timer id)
plus the pool of timers ever created; `nextId` supplies fresh timer ids. -/
structure SchedulerState where
  nextId : Nat
  timers : List Timer
  jobs : List (String × Nat)
deriving DecidableEq, Repr

/-- `this.jobs[name]` lookup. -/
def jobsGet (jobs : List (String × Nat)) (name : String) : Option Nat :=
  (jobs.find? (fun kv => kv.1 = name)).map (·.2)

/-- `this.jobs[name] = tid` record assignment. -/
def jobsSet (jobs : List (String × Nat)) (name : String) (tid : Nat) :
    List (String × Nat) :=
  if jobs.any (fun kv => kv.1 = name) then
    jobs.map (fun kv => if kv.1 = name then (name, tid) else kv)
  else jobs ++ [(name, tid)]

/-- `clearInterval(t)` (and `clearTimeout(t)`, the same operation in Node):
disarm the timer for good. -/
def clearInterval (s : SchedulerState) (tid : Nat) : SchedulerState :=
  { s with timers := s.timers.map (fun t =>
      if t.id = tid then { t with active := false } else t) }

/-- `scheduleJob(name, interval, task)`: when a job already exists under
`name`, clear its timer first; then install a fresh interval timer and
record it under `name`. -/
def scheduleJob (s : SchedulerState) (name : String) (interval : Nat)
    (task : Nat) : SchedulerState :=
  let s1 := match jobsGet s.jobs name with
    | some tid => clearInterval s tid
    | none => s
  { nextId := s1.nextId + 1,
    timers := s1.timers ++ [⟨s1.nextId, interval, task, true⟩],
    jobs := jobsSet s1.jobs name s1.nextId }

/-- `cancelJob(name)`: clear the timer and delete the record entry when
present, otherwise a no-op. -/
def cancelJob (s : SchedulerState) (name : String) : SchedulerState :=
  match jobsGet s.jobs name with
  | some tid =>
    let s1 := clearInterval s tid
    { s1 with jobs := s1.jobs.filter (fun kv => kv.1 ≠ name) }
  | none => s

/-- A timer can still fire only while it is armed. -/
def canFire (s : SchedulerState) (tid : Nat) : Bool :=
  s.timers.any (fun t => t.id == tid && t.active)

/-! ### Association-list map lemmas -/

/-- Over the in-place-update branch of a record assignment, looking up the
written key finds the new binding, provided the key was present. -/
theorem find?_map_subst_self {α β : Type} [DecidableEq α]
    (m : List (α × β)) (k : α) (v : β)
    (h : m.any (fun kv => kv.1 = k)) :
    (m.map (fun kv => if kv.1 = k then (k, v) else kv)).find?
      (fun kv => decide (kv.1 = k)) = some (k, v) := by
  induction m with
  | nil => simp at h
  | cons hd tl ih =>
    by_cases hhd : hd.1 = k
    · simp only [List.map_cons, if_pos hhd]
      rw [List.find?_cons_of_pos _ (by simp)]
    · have h' : tl.any (fun kv => kv.1 = k) := by
        simpa [List.any_cons, hhd] using h
      simp only [List.map_cons, if_neg hhd]
      rw [List.find?_cons_of_neg _ (by simpa using hhd)]
      exact ih h'

/-- When a key is absent, `find?` for it fails. -/
theorem find?_none_of_any_false {α β : Type} [DecidableEq α]
    (m : List (α × β)) (k : α)
    (h : ¬ m.any (fun kv => kv.1 = k)) :
    m.find? (fun kv => decide (kv.1 = k)) = none := by
  rw [List.find?_eq_none]
  intro x hx
  simp only [List.any_eq_true, decide_eq_true_eq, not_exists, not_and] at h
  simpa using h x hx

/-- The in-place-update branch of a record assignment leaves lookups of
other keys untouched. -/
theorem find?_map_subst_other {α β : Type} [DecidableEq α]
    (m : List (α × β)) (k k2 : α) (v : β) (h : k2 ≠ k) :
    (m.map (fun kv => if kv.1 = k then (k, v) else kv)).find?
      (fun kv => decide (kv.1 = k2)) =
    m.find? (fun kv => decide (kv.1 = k2)) := by
  induction m with
  | nil => rfl
  | cons hd tl ih =>
    by_cases hhd : hd.1 = k
    · have hne : ¬ hd.1 = k2 := by rw [hhd]; exact fun hk => h hk.symm
      simp only [List.map_cons, if_pos hhd]
      rw [List.find?_cons_of_neg _ (by simpa using Ne.symm h),
        List.find?_cons_of_neg _ (by simpa using hne)]
      exact ih
    · simp only [List.map_cons, if_neg hhd]
      by_cases hhd2 : hd.1 = k2
      · rw [List.find?_cons_of_pos _ (by simpa using hhd2),
          List.find?_cons_of_pos _ (by simpa using hhd2)]
      · rw [List.find?_cons_of_neg _ (by simpa using hhd2),
          List.find?_cons_of_neg _ (by simpa using hhd2)]
        exact ih

/-- After `mapSet m k v`, looking up `k` yields `v`. -/
theorem mapGet_mapSet_self (m : Chats) (k : Int) (v : Chat) :
    mapGet (mapSet m k v) k = some v := by
  unfold mapGet mapSet
  by_cases h : m.any (fun kv => kv.1 = k)
  · rw [if_pos h, find?_map_subst_self m k v h]
    rfl
  · rw [if_neg h, List.find?_append, find?_none_of_any_false m k h]
    simp

/-- After `mapSet m k v`, looking up a different key is unchanged. -/
theorem mapGet_mapSet_other (m : Chats) (k k2 : Int) (v : Chat) (h : k2 ≠ k) :
    mapGet (mapSet m k v) k2 = mapGet m k2 := by
  unfold mapGet mapSet
  by_cases hany : m.any (fun kv => kv.1 = k)
  · rw [if_pos hany, find?_map_subst_other m k k2 v h]
  · rw [if_neg hany, List.find?_append]
    rw [List.find?_singleton]
    rw [if_neg (by simpa using Ne.symm h)]
    simp

/-- Every entry of `mapSet m k v` is either the new binding or an entry of `m`. -/
theorem mem_mapSet (m : Chats) (k : Int) (v : Chat) (e : Int × Chat)
    (he : e ∈ mapSet m k v) : e = (k, v) ∨ e ∈ m := by
  unfold mapSet at he
  by_cases h : m.any (fun kv => kv.1 = k)
  · rw [if_pos h] at he
    obtain ⟨a, ha, hae⟩ := List.mem_map.mp he
    by_cases hak : a.1 = k
    · left; rw [← hae]; simp [hak]
    · right; rw [← hae]; simpa [hak] using ha
  · rw [if_neg h] at he
    rcases List.mem_append.mp he with h1 | h1
    · right; exact h1
    · left; simpa using h1

/-- A successful lookup names an entry of the list. -/
theorem mapGet_mem (m : Chats) (k : Int) (v : Chat) (h : mapGet m k = some v) :
    (k, v) ∈ m := by
  unfold mapGet at h
  obtain ⟨kv, hfind, hv⟩ := Option.map_eq_some'.mp h
  have hmem := List.mem_of_find?_eq_some hfind
  have hkey := List.find?_some hfind
  simp only [decide_eq_true_eq] at hkey
  have : (k, v) = kv := by
    cases kv; simp_all
  rwa [this]

/-! ### Subscription-set lemmas -/

/-- A toggle flips the toggled currency's membership. -/
theorem mem_updatedSubscribedCurrencies_self (s : List String) (c : String) :
    c ∈ updatedSubscribedCurrencies s c ↔ c ∉ s := by
  unfold updatedSubscribedCurrencies setAdd setDelete
  by_cases hc : c ∈ s
  · simp [hc]
  · simp [hc]

/-- A toggle leaves other currencies' membership alone. -/
theorem mem_updatedSubscribedCurrencies_other (s : List String) (c x : String)
    (hx : x ≠ c) : x ∈ updatedSubscribedCurrencies s c ↔ x ∈ s := by
  unfold updatedSubscribedCurrencies setAdd setDelete
  by_cases hc : c ∈ s
  · simp [hc, List.mem_filter, hx]
  · simp [hc, hx]

/-- Toggling twice restores every currency's membership. -/
theorem mem_updatedSubscribedCurrencies_twice (s : List String) (c x : String) :
    x ∈ updatedSubscribedCurrencies (updatedSubscribedCurrencies s c) c ↔ x ∈ s := by
  by_cases hx : x = c
  · subst hx
    rw [mem_updatedSubscribedCurrencies_self, mem_updatedSubscribedCurrencies_self]
    by_cases hc : x ∈ s <;> simp [hc]
  · rw [mem_updatedSubscribedCurrencies_other _ _ _ hx,
      mem_updatedSubscribedCurrencies_other _ _ _ hx]

/-- An element of a toggled set was already there or is the toggled currency. -/
theorem mem_of_mem_updatedSubscribedCurrencies (s : List String) (c x : String)
    (hx : x ∈ updatedSubscribedCurrencies s c) : x ∈ s ∨ x = c := by
  unfold updatedSubscribedCurrencies setAdd setDelete at hx
  by_cases hc : c ∈ s
  · rw [if_pos hc] at hx
    exact Or.inl (List.mem_of_mem_filter hx)
  · rw [if_neg hc, if_neg hc] at hx
    rcases List.mem_append.mp hx with h | h
    · exact Or.inl h
    · exact Or.inr (by simpa using h)

/-! ### Fan-out unfolding lemmas -/

/-- A chat with an empty subscription set is skipped by the fan-out loop. -/
theorem fanOut_cons_empty (sendOk : Int → Bool) (header : String)
    (msgs : List (String × String)) (cid : Int) (chat : Chat) (tl : Chats)
    (h : chat.subscribedCurrencies = []) :
    fanOut sendOk header msgs ((cid, chat) :: tl) = fanOut sendOk header msgs tl := by
  simp [fanOut, h]

/-- A chat with a non-empty set whose send succeeds receives the digest and
the loop continues. -/
theorem fanOut_cons_ok (sendOk : Int → Bool) (header : String)
    (msgs : List (String × String)) (cid : Int) (chat : Chat) (tl : Chats)
    (hne : chat.subscribedCurrencies ≠ []) (hok : sendOk cid = true) :
    fanOut sendOk header msgs ((cid, chat) :: tl) =
      ((cid, composeDigest header msgs chat.subscribedCurrencies) ::
        (fanOut sendOk header msgs tl).1,
       (fanOut sendOk header msgs tl).2) := by
  simp [fanOut, hok, hne]

/-- A chat with a non-empty set whose send rejects aborts the loop: nothing
further is delivered and the error escapes. -/
theorem fanOut_cons_fail (sendOk : Int → Bool) (header : String)
    (msgs : List (String × String)) (cid : Int) (chat : Chat) (tl : Chats)
    (hne : chat.subscribedCurrencies ≠ []) (hfail : sendOk cid = false) :
    fanOut sendOk header msgs ((cid, chat) :: tl) = ([], some cid) := by
  simp [fanOut, hfail, hne]

/-- When every send succeeds, every chat with a non-empty subscription set
receives its composed digest. -/
theorem fanOut_mem_of_ok (sendOk : Int → Bool) (header : String)
    (msgs : List (String × String)) (chats : Chats)
    (hok : ∀ i, sendOk i = true) :
    ∀ cid chat, (cid, chat) ∈ chats → chat.subscribedCurrencies ≠ [] →
      (cid, composeDigest header msgs chat.subscribedCurrencies) ∈
        (fanOut sendOk header msgs chats).1 := by
  induction chats with
  | nil => intro cid chat he; simp at he
  | cons hd tl ih =>
    obtain ⟨cid2, chat2⟩ := hd
    intro cid chat he hne
    rcases List.mem_cons.mp he with he | he
    · rw [Prod.mk.injEq] at he
      obtain ⟨rfl, rfl⟩ := he
      rw [fanOut_cons_ok sendOk header msgs cid chat tl hne (hok cid)]
      exact List.mem_cons_self _ _
    · by_cases hempty : chat2.subscribedCurrencies = []
      · rw [fanOut_cons_empty sendOk header msgs cid2 chat2 tl hempty]
        exact ih cid chat he hne
      · rw [fanOut_cons_ok sendOk header msgs cid2 chat2 tl hempty (hok cid2)]
        exact List.mem_cons_of_mem _ (ih cid chat he hne)

/-- When the sends before a failing chat succeed and the failing chat has a
non-empty set, the fan-out delivers exactly the digests of the earlier
non-empty chats and reports the failing chat; everything after it gets
nothing. -/
theorem fanOut_abort (sendOk : Int → Bool) (header : String)
    (msgs : List (String × String)) (pre post : Chats) (cid : Int) (chat : Chat)
    (hfail : sendOk cid = false) (hne : chat.subscribedCurrencies ≠ [])
    (hpre : ∀ p ∈ pre, sendOk p.1 = true) :
    fanOut sendOk header msgs (pre ++ (cid, chat) :: post) =
      ((pre.filter (fun p => !p.2.subscribedCurrencies.isEmpty)).map
        (fun p => (p.1, composeDigest header msgs p.2.subscribedCurrencies)),
       some cid) := by
  induction pre with
  | nil =>
    simpa using fanOut_cons_fail sendOk header msgs cid chat post hne hfail
  | cons hd tl ih =>
    obtain ⟨hcid, hchat⟩ := hd
    have hok : sendOk hcid = true := hpre (hcid, hchat) (List.mem_cons_self _ _)
    have hpre' : ∀ p ∈ tl, sendOk p.1 = true :=
      fun p hp => hpre p (List.mem_cons_of_mem _ hp)
    by_cases hempty : hchat.subscribedCurrencies = []
    · rw [List.cons_append, fanOut_cons_empty sendOk header msgs hcid hchat _ hempty,
        ih hpre']
      simp [List.filter_cons, hempty]
    · rw [List.cons_append, fanOut_cons_ok sendOk header msgs hcid hchat _ hempty hok,
        ih hpre']
      simp [List.filter_cons, hempty]

/-! ### Message-map and digest lemmas -/

/-- Every entry of the tick's message map is keyed by a tracked pair. -/
theorem buildMessages_keys (format : LocaleCurrency → Nat → String)
    (fetch : String → Option Nat) :
    ∀ e ∈ buildMessages format fetch, e.1 ∈ trackedIds := by
  intro e he
  unfold buildMessages at he
  obtain ⟨ci, hci, hce⟩ := List.mem_map.mp he
  have h1 : e.1 = ci.1 := by
    rw [← hce]; cases hfetch : fetch ci.1 <;> simp [hfetch]
  rw [h1]
  unfold trackedIds
  exact List.mem_map_of_mem _ hci

/-- An untracked identifier has no entry in the tick's message map. -/
theorem messageMapGet_buildMessages_of_untracked
    (format : LocaleCurrency → Nat → String) (fetch : String → Option Nat)
    (c : String) (hc : c ∉ trackedIds) :
    messageMapGet (buildMessages format fetch) c = none := by
  have h : (buildMessages format fetch).find? (fun kv => decide (kv.1 = c)) = none := by
    rw [List.find?_eq_none]
    intro x hx
    simp only [decide_eq_true_eq]
    intro hxc
    exact hc (by rw [← hxc]; exact buildMessages_keys format fetch x hx)
  unfold messageMapGet
  rw [h]
  rfl

/-- The message-map entry of a tracked pair: the formatted price line on
fetch success, the error line on fetch failure. -/
theorem messageMapGet_buildMessages_some
    (format : LocaleCurrency → Nat → String) (fetch : String → Option Nat)
    (q : String) (infoq : PairInfo) (hq : (q, infoq) ∈ currencies) :
    messageMapGet (buildMessages format fetch) q =
      some ((fetch q).elim (errorLine q) (priceLine format q infoq)) := by
  simp only [currencies, List.mem_cons, List.not_mem_nil, or_false,
    Prod.mk.injEq] at hq
  rcases hq with ⟨hq1, hq2⟩ | ⟨hq1, hq2⟩ <;> subst hq1 <;> subst hq2 <;>
    cases h1 : fetch "USDTIRT" <;> cases h2 : fetch "BTCIRT" <;>
      simp [buildMessages, messageMapGet, currencies, h1, h2]

/-- A price line is never the empty string (its middle literal is not empty). -/
theorem priceLine_ne_empty (format : LocaleCurrency → Nat → String) (q : String)
    (info : PairInfo) (v : Nat) : priceLine format q info v ≠ "" := by
  unfold priceLine
  intro h
  have h2 := congrArg String.length h
  have h3 : (" \n" : String).length = 2 := rfl
  simp only [String.length_append, h3] at h2
  simp at h2

/-- A line present in the message map for a subscribed identifier appears in
the subscriber's digest lines. -/
theorem mem_digestLines (header : String) (msgs : List (String × String))
    (subscribed : List String) (c L : String)
    (hc : c ∈ subscribed) (hL : messageMapGet msgs c = some L) (hne : L ≠ "") :
    L ∈ digestLines header msgs subscribed := by
  unfold digestLines
  refine List.mem_cons_of_mem _ ?_
  rw [List.mem_filter]
  refine ⟨?_, by simpa using hne⟩
  rw [List.mem_filterMap]
  exact ⟨some L, List.mem_map.mpr ⟨c, hc, by rw [hL]⟩, rfl⟩

/-- When none of the subscriber's identifiers is in the message map, the
digest degenerates to the header alone. -/
theorem digestLines_all_none (header : String) (msgs : List (String × String))
    (subscribed : List String)
    (h : ∀ c ∈ subscribed, messageMapGet msgs c = none) :
    digestLines header msgs subscribed = [header] := by
  unfold digestLines
  have h1 : (subscribed.map (fun c => messageMapGet msgs c)).filterMap id = [] := by
    rw [List.filterMap_eq_nil_iff]
    intro o ho
    obtain ⟨c, hc, rfl⟩ := List.mem_map.mp ho
    exact h c hc
  rw [h1]
  rfl

/-- Joining a single line yields that line. -/
theorem intercalate_singleton (s a : String) : String.intercalate s [a] = a := rfl

/-! ### Registry-operation bookkeeping lemmas -/

/-- `mapSet` never shrinks the map. -/
theorem length_le_mapSet (m : Chats) (k : Int) (v : Chat) :
    m.length ≤ (mapSet m k v).length := by
  unfold mapSet
  by_cases h : m.any (fun kv => kv.1 = k)
  · simp [h]
  · simp [h]

/-- No inbound mutation shrinks the map. -/
theorem length_le_applyOp (m : Chats) (op : RegOp) :
    m.length ≤ (applyOp m op).length := by
  cases op with
  | ensure cid =>
    unfold applyOp initializeChatIfAbsent
    by_cases h : (mapGet m cid).isSome
    · simp [h]
    · simp only [h, Bool.false_eq_true, if_false]
      exact length_le_mapSet m cid ⟨[]⟩
  | toggle cid c =>
    show m.length ≤ ((handleToggleCurrencyAction m cid c).getD m).length
    unfold handleToggleCurrencyAction
    cases hg : mapGet m cid with
    | none => simp
    | some chat =>
      simpa using length_le_mapSet m cid
        ⟨updatedSubscribedCurrencies chat.subscribedCurrencies c⟩
  | clear cid =>
    exact length_le_mapSet m cid ⟨[]⟩

/-- Inbound mutations never empty a non-empty registry. -/
theorem applyOps_ne_nil (m : Chats) (ops : List RegOp) (h : m ≠ []) :
    applyOps m ops ≠ [] := by
  induction ops generalizing m with
  | nil => exact h
  | cons op tl ih =>
    show applyOps (applyOp m op) tl ≠ []
    apply ih
    have h1 : 1 ≤ m.length := by
      cases m with
      | nil => exact absurd rfl h
      | cons a l => simp
    have h2 := length_le_applyOp m op
    intro hnil
    rw [hnil] at h2
    simp only [List.length_nil] at h2
    omega

/-- After `jobsSet`, looking up the written name yields the new timer id. -/
theorem jobsGet_jobsSet_self (jobs : List (String × Nat)) (name : String)
    (tid : Nat) : jobsGet (jobsSet jobs name tid) name = some tid := by
  unfold jobsGet jobsSet
  by_cases h : jobs.any (fun kv => kv.1 = name)
  · rw [if_pos h, find?_map_subst_self jobs name tid h]
    rfl
  · rw [if_neg h, List.find?_append, find?_none_of_any_false jobs name h]
    simp

/-! ### Claim theorems -/

/-- C7: a tick that starts when the registry contains zero subscribers logs
the no-users warning and returns immediately: no price-source fetch is
issued and no message is sent. -/
theorem C7_zero_subscribers_tick (format : LocaleCurrency → Nat → String)
    (fetch : String → Option Nat) (sendOk : Int → Bool) (date : String) :
    sendPriceUpdate format fetch sendOk date [] =
      { warnedNoUsers := true, fetched := [], sent := [],
        deliveryError := none } := rfl

/-- C8: for a recipient known to the registry, toggling the same identifier
twice in succession succeeds and restores the recipient's subscription set
to exactly its prior membership state, for every identifier. -/
theorem C8_toggle_involutive (m : Chats) (cid : Int) (c : String) (chat : Chat)
    (h : mapGet m cid = some chat) :
    ∃ m1 m2, handleToggleCurrencyAction m cid c = some m1 ∧
      handleToggleCurrencyAction m1 cid c = some m2 ∧
      ∀ x : String, isSubscribed m2 cid x = isSubscribed m cid x := by
  refine ⟨mapSet m cid ⟨updatedSubscribedCurrencies chat.subscribedCurrencies c⟩,
    mapSet (mapSet m cid ⟨updatedSubscribedCurrencies chat.subscribedCurrencies c⟩)
      cid ⟨updatedSubscribedCurrencies
        (updatedSubscribedCurrencies chat.subscribedCurrencies c) c⟩,
    ?_, ?_, ?_⟩
  · unfold handleToggleCurrencyAction
    rw [h]
    rfl
  · unfold handleToggleCurrencyAction
    rw [mapGet_mapSet_self]
    rfl
  · intro x
    unfold isSubscribed
    rw [mapGet_mapSet_self, h]
    simp only [Option.map_some']
    congr 1
    exact decide_eq_decide.mpr (mem_updatedSubscribedCurrencies_twice _ _ _)

/-- Witness for C8: toggling USDTIRT twice for a subscriber who has it. -/
theorem C8_toggle_involutive_witness :
    ∃ m1 m2, handleToggleCurrencyAction [(7, ⟨["USDTIRT"]⟩)] 7 "USDTIRT" = some m1 ∧
      handleToggleCurrencyAction m1 7 "USDTIRT" = some m2 ∧
      ∀ x : String, isSubscribed m2 7 x = isSubscribed [(7, ⟨["USDTIRT"]⟩)] 7 x :=
  C8_toggle_involutive [(7, ⟨["USDTIRT"]⟩)] 7 "USDTIRT" ⟨["USDTIRT"]⟩ rfl

/-- C2 as stated is false: toggling an identifier outside the tracked-pair
set does not fail with `UnknownPair` — for a known recipient it succeeds
and adds the untracked identifier to the subscription set. -/
theorem C2_counterexample :
    "FOOBAR" ∉ trackedIds ∧
    handleToggleCurrencyAction [(42, ⟨[]⟩)] 42 "FOOBAR" =
      some [(42, ⟨["FOOBAR"]⟩)] := by decide

/-- C2 amended: toggle fails when `ensure` was never called for the
recipient (an uncaught TypeError from destructuring `undefined`, not a
structured `UnknownRecipient`); for a known recipient it performs no
tracked-pair validation — for every identifier it adds it if absent,
removes it if present — and the resulting membership state is what the
refreshed keyboard reflects. -/
theorem C2_toggle_no_pair_validation (m : Chats) (cid : Int) (c : String) :
    (mapGet m cid = none → handleToggleCurrencyAction m cid c = none) ∧
    ∀ chat, mapGet m cid = some chat →
      ∃ m2, handleToggleCurrencyAction m cid c = some m2 ∧
        isSubscribed m2 cid c = some (decide (c ∉ chat.subscribedCurrencies)) := by
  constructor
  · intro h
    unfold handleToggleCurrencyAction
    rw [h]
    rfl
  · intro chat h
    refine ⟨mapSet m cid ⟨updatedSubscribedCurrencies chat.subscribedCurrencies c⟩,
      ?_, ?_⟩
    · unfold handleToggleCurrencyAction
      rw [h]
      rfl
    · unfold isSubscribed
      rw [mapGet_mapSet_self]
      simp only [Option.map_some']
      congr 1
      exact decide_eq_decide.mpr (mem_updatedSubscribedCurrencies_self _ _)

/-- Witness for C2 amended: recipient 42 unknown — failure; after ensuring
42, the toggle succeeds and membership is added. -/
theorem C2_toggle_no_pair_validation_witness :
    handleToggleCurrencyAction [] 42 "USDTIRT" = none ∧
    ∃ m2, handleToggleCurrencyAction [(42, Chat.mk [])] 42 "USDTIRT" = some m2 ∧
      isSubscribed m2 42 "USDTIRT" = some true := by
  refine ⟨(C2_toggle_no_pair_validation [] 42 "USDTIRT").1 rfl, ?_⟩
  obtain ⟨m2, h1, h2⟩ :=
    (C2_toggle_no_pair_validation [(42, Chat.mk [])] 42 "USDTIRT").2 ⟨[]⟩ rfl
  exact ⟨m2, h1, by simpa using h2⟩

/-- C9 as stated is false at unknown recipients: `clear` on a recipient the
registry does not know mutates the registry — it creates an entry for them
(with an empty set) instead of leaving the registry unchanged. -/
theorem C9_counterexample :
    mapGet [] 42 = none ∧
    handleUnsubscribeCommand [] 42 = [(42, ⟨[]⟩)] := by decide

/-- C9 amended: after clear, the recipient's subscription set reads as
empty regardless of prior state — for an unknown recipient this is still
not an error, but it creates an entry for them rather than leaving the
registry unchanged — and no other recipient's entry is affected. -/
theorem C9_clear_empties (m : Chats) (cid : Int) :
    mapGet (handleUnsubscribeCommand m cid) cid = some ⟨[]⟩ ∧
    ∀ other : Int, other ≠ cid →
      mapGet (handleUnsubscribeCommand m cid) other = mapGet m other :=
  ⟨mapGet_mapSet_self m cid ⟨[]⟩,
   fun other h => mapGet_mapSet_other m cid other ⟨[]⟩ h⟩

/-- Witness for C9 amended at a concrete registry. -/
theorem C9_clear_empties_witness :
    mapGet (handleUnsubscribeCommand [(1, ⟨["USDTIRT"]⟩)] 1) 1 = some ⟨[]⟩ ∧
    mapGet (handleUnsubscribeCommand [(1, ⟨["USDTIRT"]⟩)] 1) 2 =
      mapGet [(1, ⟨["USDTIRT"]⟩)] 2 := by
  have h := C9_clear_empties [(1, ⟨["USDTIRT"]⟩)] 1
  exact ⟨h.1, h.2 2 (by decide)⟩

/-- C10: an identifier in a subscription set with no entry in the tick's
message map is silently omitted from the digest (never an undefined line,
never a crash); a subscriber whose non-empty set holds only such untracked
identifiers still receives a message consisting of the header alone. -/
theorem C10_untracked_filtered (format : LocaleCurrency → Nat → String)
    (fetch : String → Option Nat) (sendOk : Int → Bool) (date : String)
    (chats : Chats) (cid : Int) (chat : Chat)
    (hmem : (cid, chat) ∈ chats) (hne : chat.subscribedCurrencies ≠ [])
    (hun : ∀ c ∈ chat.subscribedCurrencies, c ∉ trackedIds)
    (hok : ∀ i, sendOk i = true) :
    composeDigest ("Price Pulse!\n" ++ date) (buildMessages format fetch)
        chat.subscribedCurrencies = "Price Pulse!\n" ++ date ∧
    (cid, "Price Pulse!\n" ++ date) ∈
      (sendPriceUpdate format fetch sendOk date chats).sent := by
  have hdg : composeDigest ("Price Pulse!\n" ++ date) (buildMessages format fetch)
      chat.subscribedCurrencies = "Price Pulse!\n" ++ date := by
    unfold composeDigest
    rw [digestLines_all_none _ _ _
      (fun c hc => messageMapGet_buildMessages_of_untracked format fetch c (hun c hc))]
    exact intercalate_singleton _ _
  refine ⟨hdg, ?_⟩
  have hlen : ¬ chats.length = 0 := by
    intro h0
    rw [List.length_eq_zero] at h0
    rw [h0] at hmem
    simp at hmem
  have hfan := fanOut_mem_of_ok sendOk ("Price Pulse!\n" ++ date)
    (buildMessages format fetch) chats hok cid chat hmem hne
  rw [hdg] at hfan
  unfold sendPriceUpdate
  rw [if_neg hlen]
  exact hfan

/-- Witness for C10: a subscriber whose only identifier is untracked gets
exactly the header. -/
theorem C10_untracked_filtered_witness :
    composeDigest ("Price Pulse!\n" ++ "d") (buildMessages (fun d _ => d.currency)
        (fun _ => some 0)) (Chat.mk ["XYZ"]).subscribedCurrencies =
      "Price Pulse!\n" ++ "d" ∧
    ((3 : Int), "Price Pulse!\n" ++ "d") ∈
      (sendPriceUpdate (fun d _ => d.currency) (fun _ => some 0) (fun _ => true) "d"
        [(3, Chat.mk ["XYZ"])]).sent :=
  C10_untracked_filtered (fun d _ => d.currency) (fun _ => some 0) (fun _ => true)
    "d" [(3, Chat.mk ["XYZ"])] 3 (Chat.mk ["XYZ"]) (by decide) (by decide)
    (by decide) (fun _ => rfl)

/-- C6: within one tick, a failed fetch for one tracked pair degrades only
that pair's line to the fixed error line naming it; any other tracked pair
with a successful fetch keeps its formatted quote line, and (all sends
succeeding) every subscriber subscribed to that pair receives a digest
containing that correct line. -/
theorem C6_fetch_isolation (format : LocaleCurrency → Nat → String)
    (fetch : String → Option Nat) (sendOk : Int → Bool) (date : String)
    (chats : Chats) (p q : String) (infop infoq : PairInfo) (v : Nat)
    (hp : (p, infop) ∈ currencies) (hpf : fetch p = none)
    (hq : (q, infoq) ∈ currencies) (hqf : fetch q = some v)
    (hok : ∀ i, sendOk i = true) :
    messageMapGet (buildMessages format fetch) p = some (errorLine p) ∧
    messageMapGet (buildMessages format fetch) q =
      some (priceLine format q infoq v) ∧
    ∀ cid chat, (cid, chat) ∈ chats → q ∈ chat.subscribedCurrencies →
      (cid, composeDigest ("Price Pulse!\n" ++ date) (buildMessages format fetch)
          chat.subscribedCurrencies) ∈
        (sendPriceUpdate format fetch sendOk date chats).sent ∧
      priceLine format q infoq v ∈
        digestLines ("Price Pulse!\n" ++ date) (buildMessages format fetch)
          chat.subscribedCurrencies := by
  have h1 : messageMapGet (buildMessages format fetch) p = some (errorLine p) := by
    rw [messageMapGet_buildMessages_some format fetch p infop hp, hpf]
    rfl
  have h2 : messageMapGet (buildMessages format fetch) q =
      some (priceLine format q infoq v) := by
    rw [messageMapGet_buildMessages_some format fetch q infoq hq, hqf]
    rfl
  refine ⟨h1, h2, ?_⟩
  intro cid chat hmem hsub
  have hne : chat.subscribedCurrencies ≠ [] := by
    intro h0
    rw [h0] at hsub
    simp at hsub
  have hlen : ¬ chats.length = 0 := by
    intro h0
    rw [List.length_eq_zero] at h0
    rw [h0] at hmem
    simp at hmem
  constructor
  · have hfan := fanOut_mem_of_ok sendOk ("Price Pulse!\n" ++ date)
      (buildMessages format fetch) chats hok cid chat hmem hne
    unfold sendPriceUpdate
    rw [if_neg hlen]
    exact hfan
  · exact mem_digestLines _ _ _ q _ hsub h2 (priceLine_ne_empty format q infoq v)

/-- Witness for C6: the spec's own example — BTCIRT's fetch fails, USDTIRT
quotes 58000, subscriber 1 is subscribed to USDTIRT. -/
theorem C6_fetch_isolation_witness :
    messageMapGet (buildMessages (fun d _ => d.currency)
        (fun c => if c = "BTCIRT" then none else some 58000)) "BTCIRT" =
      some (errorLine "BTCIRT") ∧
    messageMapGet (buildMessages (fun d _ => d.currency)
        (fun c => if c = "BTCIRT" then none else some 58000)) "USDTIRT" =
      some (priceLine (fun d _ => d.currency) "USDTIRT"
        ⟨⟨"en-US", "USD"⟩, ⟨"fa-IR", "IRR"⟩⟩ 58000) ∧
    ∀ cid chat, (cid, chat) ∈ [((1 : Int), Chat.mk ["USDTIRT"])] →
      "USDTIRT" ∈ chat.subscribedCurrencies →
      (cid, composeDigest ("Price Pulse!\n" ++ "d")
          (buildMessages (fun d _ => d.currency)
            (fun c => if c = "BTCIRT" then none else some 58000))
          chat.subscribedCurrencies) ∈
        (sendPriceUpdate (fun d _ => d.currency)
          (fun c => if c = "BTCIRT" then none else some 58000) (fun _ => true) "d"
          [(1, Chat.mk ["USDTIRT"])]).sent ∧
      priceLine (fun d _ => d.currency) "USDTIRT"
          ⟨⟨"en-US", "USD"⟩, ⟨"fa-IR", "IRR"⟩⟩ 58000 ∈
        digestLines ("Price Pulse!\n" ++ "d")
          (buildMessages (fun d _ => d.currency)
            (fun c => if c = "BTCIRT" then none else some 58000))
          chat.subscribedCurrencies :=
  C6_fetch_isolation (fun d _ => d.currency)
    (fun c => if c = "BTCIRT" then none else some 58000) (fun _ => true) "d"
    [(1, Chat.mk ["USDTIRT"])] "BTCIRT" "USDTIRT"
    ⟨⟨"en-US", "BTC"⟩, ⟨"fa-IR", "IRR"⟩⟩ ⟨⟨"en-US", "USD"⟩, ⟨"fa-IR", "IRR"⟩⟩ 58000
    (by decide) (by decide) (by decide) (by decide) (fun _ => rfl)

/-- C1 as stated is false: when the send to subscriber 1 rejects, the tick
aborts — subscriber 2, still holding a non-empty subscription set, receives
nothing. -/
theorem C1_counterexample :
    (sendPriceUpdate (fun d _ => d.currency) (fun _ => some 0)
        (fun i => i != 1) "d"
        [(1, ⟨["USDTIRT"]⟩), (2, ⟨["USDTIRT"]⟩)]).sent = [] ∧
    (sendPriceUpdate (fun d _ => d.currency) (fun _ => some 0)
        (fun i => i != 1) "d"
        [(1, ⟨["USDTIRT"]⟩), (2, ⟨["USDTIRT"]⟩)]).deliveryError = some 1 := by
  decide

/-- C1 amended: a delivery failure is not caught inside the tick — the
rejection escapes the fan-out loop, so the subscribers iterated before the
failing one have received the digest while the failing subscriber and every
one after it receive nothing for that tick. -/
theorem C1_delivery_failure_aborts (format : LocaleCurrency → Nat → String)
    (fetch : String → Option Nat) (sendOk : Int → Bool) (date : String)
    (pre post : Chats) (cid : Int) (chat : Chat)
    (hfail : sendOk cid = false) (hne : chat.subscribedCurrencies ≠ [])
    (hpre : ∀ e ∈ pre, sendOk e.1 = true) :
    (sendPriceUpdate format fetch sendOk date
        (pre ++ (cid, chat) :: post)).deliveryError = some cid ∧
    (sendPriceUpdate format fetch sendOk date
        (pre ++ (cid, chat) :: post)).sent =
      (pre.filter (fun e => !e.2.subscribedCurrencies.isEmpty)).map
        (fun e => (e.1, composeDigest ("Price Pulse!\n" ++ date)
          (buildMessages format fetch) e.2.subscribedCurrencies)) := by
  have hlen : ¬ (pre ++ (cid, chat) :: post).length = 0 := by simp
  have hfan := fanOut_abort sendOk ("Price Pulse!\n" ++ date)
    (buildMessages format fetch) pre post cid chat hfail hne hpre
  constructor
  · unfold sendPriceUpdate
    rw [if_neg hlen]
    show (fanOut sendOk ("Price Pulse!\n" ++ date) (buildMessages format fetch)
      (pre ++ (cid, chat) :: post)).2 = some cid
    rw [hfan]
  · unfold sendPriceUpdate
    rw [if_neg hlen]
    show (fanOut sendOk ("Price Pulse!\n" ++ date) (buildMessages format fetch)
      (pre ++ (cid, chat) :: post)).1 = _
    rw [hfan]

/-- Witness for C1 amended: a single subscriber whose send fails — the error
escapes and nothing is delivered. -/
theorem C1_delivery_failure_aborts_witness :
    (sendPriceUpdate (fun d _ => d.currency) (fun _ => some 0) (fun i => i != 1)
        "d" [(1, ⟨["USDTIRT"]⟩)]).deliveryError = some 1 ∧
    (sendPriceUpdate (fun d _ => d.currency) (fun _ => some 0) (fun i => i != 1)
        "d" [(1, ⟨["USDTIRT"]⟩)]).sent = [] := by
  have h := C1_delivery_failure_aborts (fun d _ => d.currency) (fun _ => some 0)
    (fun i => i != 1) "d" [] [] 1 ⟨["USDTIRT"]⟩ (by decide) (by decide) (by simp)
  exact ⟨by simpa using h.1, by simpa using h.2⟩

/-- C3 as stated is false: from the empty registry, `ensure 1` then
`toggle 1 "XYZ"` — an identifier outside the tracked-pair set — leaves
"XYZ" in subscriber 1's subscription set. -/
theorem C3_counterexample :
    "XYZ" ∉ trackedIds ∧
    applyOps [] [RegOp.ensure 1, RegOp.toggle 1 "XYZ"] = [(1, ⟨["XYZ"]⟩)] := by
  decide

/-- C3 amended: the invariant holds only for operation sequences whose
toggles all carry tracked identifiers (which is all the inline keyboard can
produce, but not all the callback transport can deliver): under that
restriction, no sequence of ensure/toggle/clear breaks it. -/
theorem C3_inv_of_tracked_ops (m : Chats) (ops : List RegOp)
    (hm : registryInv m) (hops : ∀ op ∈ ops, opTracked op = true) :
    registryInv (applyOps m ops) := by
  induction ops generalizing m with
  | nil => exact hm
  | cons op tl ih =>
    show registryInv (applyOps (applyOp m op) tl)
    have hop := hops op (List.mem_cons_self _ _)
    refine ih (applyOp m op) ?_ (fun o ho => hops o (List.mem_cons_of_mem _ ho))
    cases op with
    | ensure cid =>
      show registryInv (initializeChatIfAbsent m cid)
      unfold initializeChatIfAbsent
      by_cases h : (mapGet m cid).isSome
      · rw [if_pos h]
        exact hm
      · rw [if_neg h]
        intro e he c hc
        rcases mem_mapSet m cid ⟨[]⟩ e he with rfl | he2
        · simp at hc
        · exact hm e he2 c hc
    | toggle cid cc =>
      show registryInv ((handleToggleCurrencyAction m cid cc).getD m)
      unfold handleToggleCurrencyAction
      cases hg : mapGet m cid with
      | none => simpa using hm
      | some chat =>
        simp only [Option.map_some', Option.getD_some]
        intro e he c hc
        rcases mem_mapSet m cid
            ⟨updatedSubscribedCurrencies chat.subscribedCurrencies cc⟩ e he with
          rfl | he2
        · simp only at hc
          rcases mem_of_mem_updatedSubscribedCurrencies _ _ _ hc with hmem | rfl
          · exact hm (cid, chat) (mapGet_mem m cid chat hg) c hmem
          · simpa [opTracked] using hop
        · exact hm e he2 c hc
    | clear cid =>
      show registryInv (handleUnsubscribeCommand m cid)
      unfold handleUnsubscribeCommand
      intro e he c hc
      rcases mem_mapSet m cid ⟨[]⟩ e he with rfl | he2
      · simp at hc
      · exact hm e he2 c hc

/-- Witness for C3 amended: an ensure followed by a tracked toggle keeps the
invariant. -/
theorem C3_inv_of_tracked_ops_witness :
    registryInv (applyOps [] [RegOp.ensure 1, RegOp.toggle 1 "USDTIRT"]) :=
  C3_inv_of_tracked_ops [] [RegOp.ensure 1, RegOp.toggle 1 "USDTIRT"]
    (by intro e he; simp at he) (by decide)

/-- C4 as stated is false: with subscriber 1 subscribed to USDTIRT, a toggle
arriving during the fetch phase removes the subscription and the in-flight
tick delivers nothing to them, while a tick over the pre-mutation registry
would have delivered their digest. -/
theorem C4_counterexample :
    (sendPriceUpdateWithMidTickOps (fun d _ => d.currency) (fun _ => some 0)
        (fun _ => true) "d" [(1, ⟨["USDTIRT"]⟩)]
        [RegOp.toggle 1 "USDTIRT"]).sent = [] ∧
    (sendPriceUpdate (fun d _ => d.currency) (fun _ => some 0)
        (fun _ => true) "d" [(1, ⟨["USDTIRT"]⟩)]).sent ≠ [] := by
  decide

/-- C4 amended: `sendPriceUpdate` takes no snapshot — its fan-out iterates
the live registry, so a tick with mutations arriving during the fetch phase
behaves exactly like a tick over the already-mutated registry (only the
zero-subscriber guard reads the pre-mutation registry). -/
theorem C4_no_snapshot (format : LocaleCurrency → Nat → String)
    (fetch : String → Option Nat) (sendOk : Int → Bool) (date : String)
    (chats : Chats) (ops : List RegOp) (h : chats ≠ []) :
    sendPriceUpdateWithMidTickOps format fetch sendOk date chats ops =
      sendPriceUpdate format fetch sendOk date (applyOps chats ops) := by
  have h1 : ¬ chats.length = 0 := by
    simpa [List.length_eq_zero] using h
  have h2 : ¬ (applyOps chats ops).length = 0 := by
    simpa [List.length_eq_zero] using applyOps_ne_nil chats ops h
  unfold sendPriceUpdateWithMidTickOps sendPriceUpdate
  rw [if_neg h1, if_neg h2]

/-- Witness for C4 amended at the counterexample's input. -/
theorem C4_no_snapshot_witness :
    sendPriceUpdateWithMidTickOps (fun d _ => d.currency) (fun _ => some 0)
        (fun _ => true) "d" [(1, ⟨["USDTIRT"]⟩)] [RegOp.toggle 1 "USDTIRT"] =
      sendPriceUpdate (fun d _ => d.currency) (fun _ => some 0) (fun _ => true)
        "d" (applyOps [(1, ⟨["USDTIRT"]⟩)] [RegOp.toggle 1 "USDTIRT"]) :=
  C4_no_snapshot (fun d _ => d.currency) (fun _ => some 0) (fun _ => true) "d"
    [(1, ⟨["USDTIRT"]⟩)] [RegOp.toggle 1 "USDTIRT"] (by decide)

/-- C5: registering a recurring job under a name that already has a job
clears the prior timer before installing the new one: after
`scheduleJob "tick" i f` then `scheduleJob "tick" j g`, the name "tick"
resolves to g's fresh timer alone, that timer is armed, no timer carrying
f's identity can ever fire again, and — from the fresh scheduler, with the
spec's literal 1000/500 intervals — exactly g's timer remains active. -/
theorem C5_scheduleJob_replaces (s : SchedulerState) (i j f g : Nat) :
    jobsGet (scheduleJob (scheduleJob s "tick" i f) "tick" j g).jobs "tick" =
      some (s.nextId + 1) ∧
    (⟨s.nextId + 1, j, g, true⟩ : Timer) ∈
      (scheduleJob (scheduleJob s "tick" i f) "tick" j g).timers ∧
    canFire (scheduleJob (scheduleJob s "tick" i f) "tick" j g) s.nextId =
      false ∧
    ((scheduleJob (scheduleJob ⟨0, [], []⟩ "tick" 1000 f) "tick" 500 g).timers.filter
      (fun t => t.active)) = [⟨1, 500, g, true⟩] := by
  have e1 : scheduleJob s "tick" i f =
      { nextId := s.nextId + 1,
        timers := (match jobsGet s.jobs "tick" with
          | some tid => (clearInterval s tid).timers
          | none => s.timers) ++ [⟨s.nextId, i, f, true⟩],
        jobs := jobsSet s.jobs "tick" s.nextId } := by
    cases h0 : jobsGet s.jobs "tick" <;> simp [scheduleJob, h0, clearInterval]
  have e2 : scheduleJob (scheduleJob s "tick" i f) "tick" j g =
      { nextId := s.nextId + 2,
        timers := (((match jobsGet s.jobs "tick" with
            | some tid => (clearInterval s tid).timers
            | none => s.timers) ++ [⟨s.nextId, i, f, true⟩]).map
          (fun t => if t.id = s.nextId then { t with active := false } else t)) ++
          [⟨s.nextId + 1, j, g, true⟩],
        jobs := jobsSet (jobsSet s.jobs "tick" s.nextId) "tick" (s.nextId + 1) } := by
    rw [e1]
    simp [scheduleJob, jobsGet_jobsSet_self, clearInterval]
  refine ⟨?_, ?_, ?_, ?_⟩
  · rw [e2]
    exact jobsGet_jobsSet_self _ _ _
  · rw [e2]
    simp
  · rw [e2]
    unfold canFire
    rw [List.any_eq_false]
    intro t ht
    simp only [List.mem_append, List.mem_map, List.mem_singleton] at ht
    rcases ht with ⟨t0, ht0, rfl⟩ | rfl
    · by_cases hid : t0.id = s.nextId
      · simp [hid]
      · simp [hid]
    · simp
  · rfl

end PricePulse
